import Mathlib

/-!
Verification of the session store, context assembler and artifact pipeline
of `app.py` (lalamuse). Each definition is a shallow embedding of the
correspondingly named Python function; external collaborators (the OpenAI
chat-completion client, the Supabase client, SHA-256) are modelled as
explicit parameters or as an abstract backend state.
-/

namespace Lalamuse

/-- A chat message `{"role": ..., "content": ...}` as used throughout `app.py`. -/
structure Msg where
  role : String
  content : String
deriving DecidableEq, Repr

/-- A session document. Python stores it as a JSON dict; the five artifact
keys may be absent in documents loaded from the store (older revisions did
not write them), so they are modelled as `Option String` where `none`
means "key absent". `title`, `messages`, `created_at` are always written
at creation (lines 251/268). -/
structure SessionDoc where
  title : String
  messages : List Msg
  article_content : Option String
  script_content : Option String
  outline_content : Option String
  extracted_material : Option String
  extracted_analysis : Option String
  created_at : String
deriving DecidableEq, Repr

/-- Line 207 of `call_ai_stream`:
`if len(messages)>20: messages=[messages[0]]+messages[-20:]`.
`[messages[0]]` is `take 1`, `messages[-20:]` is the last 20 elements. -/
def truncateMessages (messages : List Msg) : List Msg :=
  if messages.length > 20 then
    messages.take 1 ++ messages.drop (messages.length - 20)
  else messages

/-- The system/persona message prepended for a conversational turn
(line 302: `[{"role":"system","content":act_p}] + SESS["messages"]`). -/
def sysMsg (persona : String) : Msg := ⟨"system", persona⟩

/-- The message list assembled for a conversational turn: system message
prepended to the history (line 302), then passed through the truncation
performed inside `call_ai_stream` (line 207). -/
def assembleContext (persona : String) (history : List Msg) : List Msg :=
  truncateMessages (sysMsg persona :: history)

/-- The outcome of one chat-completion request made by the backend client:
either the completed text, or an exception `e` raised by the library call. -/
inductive AiResult where
  | text : String → AiResult
  | failure : String → AiResult
deriving DecidableEq, Repr

/-- Lines 211-214, `call_ai_blocking(prompt, system, settings)`: one
non-streaming completion; any exception is caught and returned as the
string `f"Error: {e}"`. The external client is the parameter `ai`,
mapping (prompt, system) to the request's outcome. -/
def call_ai_blocking (ai : String → String → AiResult) (prompt system : String) : String :=
  match ai prompt system with
  | AiResult.text t => t
  | AiResult.failure e => "Error: " ++ e

/-- What `call_ai_stream` hands back to its caller: either a stream (modelled
by the list of text fragments the caller will accumulate) or, when the
request raised, the string `f"Error: {e}"` returned from the except branch. -/
inductive StreamResult where
  | stream : List String → StreamResult
  | errstr : String → StreamResult
deriving DecidableEq, Repr

/-- Lines 205-209, `call_ai_stream(messages, settings)`: truncate the message
list to first element plus last 20 when longer than 20 (line 207, the
shared `truncateMessages`), then issue the request; an exception is caught
and the string `f"Error: {e}"` is returned instead of a stream. The
external client is the parameter `ai`, mapping the (truncated) message
list to either the stream's fragments or a raised exception. -/
def call_ai_stream (ai : List Msg → Except String (List String))
    (messages : List Msg) : StreamResult :=
  match ai (truncateMessages messages) with
  | Except.ok frags => StreamResult.stream frags
  | Except.error e => StreamResult.errstr ("Error: " ++ e)

/-- Lines 49-66: the fixed system instruction for script generation. -/
def SCRIPT_STYLE_GUIDE : String :=
  "\n你是一名好莱坞专业编剧。请严格按照以下【紧凑格式】、【内容要求】创作剧本，不要有多余空行。\n\n"
    ++ "格式要求：\n1. 剧本标题：居中，书名号。\n2. 人物列表：列出人物名、性别、年龄、简短特征。\n"
    ++ "3. 场景头 (SCENE HEADING)：使用 \"第一幕\" 或 \"INT./EXT.\" + 时间/地点。\n"
    ++ "4. 动作描述 (ACTION)：用全角括号（）包裹，如（翻来覆去睡不着）。\n"
    ++ "5. 对话格式：\n   - 角色名：(情绪/动作) 对白内容。\n   - 例如：A：（低声）……在吗？\n"
    ++ "6. 禁止：对话中间不要有多余的空行。动作和对话之间紧凑排列。\n\n"
    ++ "内容要求：\n1. 自然且真实的对话：贴近日常口语，避免过度修辞，避免翻译腔。\n"
    ++ "2. 对话推动剧情：台词具有目的性。\n3. 情感层次：善于从潜台词中展示冲突，不要直白喊出来。\n"

/-- Line 458: the prompt of the outline ("大纲模式") generation request. -/
def outlinePrompt (ctx_str thm chars plot : String) : String :=
  "背景:" ++ ctx_str ++ "\n主题:" ++ thm ++ "\n人物:" ++ chars ++ "\n情节:" ++ plot
    ++ "\n要求:生成Beat Sheet"

/-- Lines 456-459, the outline generation branch of 剧本Pro: the blocking
call's result `res` (the completion text, or `"Error: {e}"` on failure) is
stored wholesale into `SESS["outline_content"]`. -/
def outlineBranch (ai : String → String → AiResult) (sess : SessionDoc)
    (ctx_str thm chars plot : String) : SessionDoc :=
  let res := call_ai_blocking ai (outlinePrompt ctx_str thm chars plot) "你是策划"
  { sess with outline_content := some res }

/-- Line 461: the base prompt for direct script generation. -/
def basePrompt (ctx_str thm chars scene plot extra : String) : String :=
  "背景:" ++ ctx_str ++ "\n主题:" ++ thm ++ "\n人物:" ++ chars ++ "\n场景:" ++ scene
    ++ "\n情节:" ++ plot ++ "\n补充:" ++ extra

/-- Line 464: the draft stage of the multi-agent flow. -/
def draftOf (ai : String → String → AiResult) (p : String) : String :=
  call_ai_blocking ai p SCRIPT_STYLE_GUIDE

/-- Line 465: the critique stage, fed the draft text `d`. -/
def critiqueOf (ai : String → String → AiResult) (d : String) : String :=
  call_ai_blocking ai ("批评:\n" ++ d) "毒舌审稿"

/-- Line 466: the rewrite prompt interpolating draft `d` and critique `c`. -/
def rewritePrompt (d c : String) : String :=
  "原稿:\n" ++ d ++ "\n意见:\n" ++ c ++ "\n重写:"

/-- Lines 460-472, the script generation branch of 剧本Pro (`u_out` false).
With `u_ma` true, the multi-agent stages run first and replace `final_p`
by the rewrite prompt. The streamed response is accumulated into `ft`
(here `String.join frags`) and stored into `SESS["script_content"]`.
When `call_ai_stream` returns an error string, `stream_parser` iterates it
as characters and `chunk.choices` raises an uncaught AttributeError, so the
interaction aborts before the assignment: modelled as `Except.error`. -/
def scriptBranch (ai : String → String → AiResult)
    (aiS : List Msg → Except String (List String)) (sess : SessionDoc)
    (ctx_str thm chars scene plot extra : String) (u_ma : Bool) :
    Except String SessionDoc :=
  let final_p := basePrompt ctx_str thm chars scene plot extra
  let final_p := if u_ma then
      let d := draftOf ai final_p
      let c := critiqueOf ai d
      rewritePrompt d c
    else final_p
  match call_ai_stream aiS [⟨"system", SCRIPT_STYLE_GUIDE⟩, ⟨"user", final_p⟩] with
  | StreamResult.errstr e => Except.error e
  | StreamResult.stream frags =>
      Except.ok { sess with script_content := some (String.join frags) }

/-- One row of the Supabase `chat_history` table, as written by
`save_session_db` (line 192): `{"id": sid, "username": u, "data": data}`. -/
structure ChatRecord where
  id : String
  username : String
  data : SessionDoc
deriving DecidableEq, Repr

/-- Supabase `upsert` on `chat_history`, keyed by `id`: replace every row
with the same id, or append the row when the id is absent. -/
def tableUpsert (t : List ChatRecord) (r : ChatRecord) : List ChatRecord :=
  if t.any (fun x => x.id == r.id) then
    t.map (fun x => if x.id == r.id then r else x)
  else t ++ [r]

/-- Supabase `delete().eq("id", sid)` on `chat_history`: remove every row
with the given id (removing nothing when the id is absent is no error). -/
def tableDelete (t : List ChatRecord) (sid : String) : List ChatRecord :=
  t.filter (fun x => x.id != sid)

/-- Supabase `select("*").eq("username", u)` on `chat_history`. -/
def tableSelectUser (t : List ChatRecord) (u : String) : List ChatRecord :=
  t.filter (fun x => x.username == u)

/-- The dict comprehension of line 190, `{r['id']: r['data'] for r in res.data}`:
insertion in list order, so the last row with a given id wins. -/
def dictGet (rs : List ChatRecord) (k : String) : Option SessionDoc :=
  match rs with
  | [] => Option.none
  | r :: rest =>
    match dictGet rest k with
    | some d => some d
    | Option.none => if r.id == k then some r.data else Option.none

/-- The state of the Supabase client as seen through `init_supabase`
(lines 106-109) and the table calls: `unconfigured` models
`init_supabase()` returning `None` (missing URL/key); `working t` a
functioning client over table contents `t`; `failing e` a client whose
operations raise the exception `e`. -/
inductive Backend where
  | unconfigured : Backend
  | working : List ChatRecord → Backend
  | failing : String → Backend
deriving DecidableEq, Repr

/-- Lines 187-191, `load_user_data(u)`: returns the empty mapping when the
client is unconfigured (`if not sb: return {}`) or when the select raises
(`except: return {}`); otherwise the dict built from the selected rows. -/
def load_user_data (sb : Backend) (u : String) : String → Option SessionDoc :=
  match sb with
  | Backend.unconfigured => fun _ => Option.none
  | Backend.failing _ => fun _ => Option.none
  | Backend.working t => dictGet (tableSelectUser t u)

/-- Line 192, `save_session_db(sid, data, u)`:
`sb=init_supabase(); sb and sb.table("chat_history").upsert({...}).execute()`.
The `sb and ...` short-circuit returns normally when the client is
unconfigured, but there is no try/except: an exception raised by the
upsert propagates to the caller (`Except.error`). On success the new
table state is returned. -/
def save_session_db (sb : Backend) (sid : String) (data : SessionDoc)
    (u : String) : Except String Backend :=
  match sb with
  | Backend.unconfigured => Except.ok Backend.unconfigured
  | Backend.working t => Except.ok (Backend.working (tableUpsert t ⟨sid, u, data⟩))
  | Backend.failing e => Except.error e

/-- Line 193, `delete_session_db(sid)`: same shape as `save_session_db`,
`sb and sb.table("chat_history").delete().eq("id", sid).execute()`. -/
def delete_session_db (sb : Backend) (sid : String) : Except String Backend :=
  match sb with
  | Backend.unconfigured => Except.ok Backend.unconfigured
  | Backend.working t => Except.ok (Backend.working (tableDelete t sid))
  | Backend.failing e => Except.error e

/-- Lines 246-247: `if k not in s: s[k]=""` for one key — an absent key is
defaulted to the empty string, a present one is left unchanged. -/
def fillKey : Option String → Option String
  | Option.none => some ""
  | some v => some v

/-- Lines 245-247, the back-fill applied to each loaded session document:
each of the five keys `article_content`, `script_content`,
`outline_content`, `extracted_material`, `extracted_analysis` is defaulted
to `""` when absent. -/
def backfill (s : SessionDoc) : SessionDoc :=
  { s with
    article_content := fillKey s.article_content
    script_content := fillKey s.script_content
    outline_content := fillKey s.outline_content
    extracted_material := fillKey s.extracted_material
    extracted_analysis := fillKey s.extracted_analysis }

/-- Lines 243-247: the history mapping at login is `load_user_data` followed
by the back-fill loop mutating every document in place. -/
def loadAndBackfill (sb : Backend) (u : String) : String → Option SessionDoc :=
  fun k => (load_user_data sb u k).map backfill

/-- One row of the Supabase `users` table, as written by `register_user`
(line 175): `{"username": u, "password": hash_password(p), "personas": {}}`.
`password` holds the one-way hash, never the plain password. -/
structure UserRecord where
  username : String
  password : String
  personas : List (String × String)
deriving DecidableEq, Repr

/-- Line 170, `hash_password(p)`: `hashlib.sha256(p.encode()).hexdigest()`.
SHA-256 is an external library; it is modelled by the parameter `hashP`
threaded through `register_user` and `login_user`. -/
def hash_password (hashP : String → String) (p : String) : String := hashP p

/-- Lines 171-176, `register_user(u, p)` on a functioning users table:
refuse when the username already exists, otherwise insert the row with
the hashed password and empty personas, returning `(True, "成功")`. -/
def register_user (hashP : String → String) (users : List UserRecord)
    (u p : String) : (Bool × String) × List UserRecord :=
  if users.any (fun r => r.username == u) then ((false, "存在"), users)
  else ((true, "成功"), users ++ [⟨u, hash_password hashP p, []⟩])

/-- Python truthiness of the password argument of `login_user` (default
`None`): `if p:` is false exactly for `None` and the empty string. -/
def pwTruthy : Option String → Bool
  | Option.none => false
  | some s => s != ""

/-- Lines 177-185, `login_user(u, p=None)` on a functioning users table:
select by username, and add the password-hash filter only when `p` is
truthy (`if p: q = q.eq("password", hash_password(p))`); return
`(True, res.data[0])` when a row matched, else `(False, {})` (here
`(false, Option.none)`). -/
def login_user (hashP : String → String) (users : List UserRecord)
    (u : String) (p : Option String) : Bool × Option UserRecord :=
  let base := users.filter (fun r => r.username == u)
  let res := if pwTruthy p then
      base.filter (fun r => r.password == hash_password hashP (p.getD ""))
    else base
  match res with
  | [] => (false, Option.none)
  | r :: _ => (true, some r)

/-! Helper lemmas. -/

/-- Filtering twice with the same predicate is the same as filtering once. -/
theorem filter_idem {α : Type} (p : α → Bool) (l : List α) :
    (l.filter p).filter p = l.filter p := by
  induction l with
  | nil => rfl
  | cons a l ih => by_cases h : p a <;> simp [List.filter_cons, h, ih]

/-- The back-fill of a single key always yields a present value. -/
theorem fillKey_isSome (o : Option String) : (fillKey o).isSome = true := by
  cases o <;> rfl

/-- The truncation of line 207 is the identity on lists of at most 20 messages. -/
theorem truncateMessages_short (ms : List Msg) (h : ms.length ≤ 20) :
    truncateMessages ms = ms := by
  unfold truncateMessages
  rw [if_neg (by omega)]

/-- A row appended at the end of the selection wins the dict build at its id. -/
theorem dictGet_append_last (xs : List ChatRecord) (r : ChatRecord) :
    dictGet (xs ++ [r]) r.id = some r.data := by
  induction xs with
  | nil => simp [dictGet]
  | cons x xs ih => simp [dictGet, ih]

/-- The dict build misses a key carried by no row. -/
theorem dictGet_eq_none (rs : List ChatRecord) (k : String)
    (h : ∀ r ∈ rs, r.id ≠ k) : dictGet rs k = Option.none := by
  induction rs with
  | nil => rfl
  | cons x xs ih =>
    have hx : x.id ≠ k := h x (List.mem_cons_self x xs)
    have hxs : dictGet xs k = Option.none :=
      ih (fun r hr => h r (List.mem_cons_of_mem x hr))
    simp [dictGet, hxs, hx]

/-- When every row carrying the id equals `r` and at least one row carries
it, the dict build yields `r.data` at that id. -/
theorem dictGet_all_eq (rs : List ChatRecord) (r : ChatRecord)
    (hall : ∀ x ∈ rs, x.id = r.id → x = r)
    (hex : ∃ x ∈ rs, x.id = r.id) : dictGet rs r.id = some r.data := by
  induction rs with
  | nil => simp at hex
  | cons y ys ih =>
    by_cases hys : ∃ x ∈ ys, x.id = r.id
    · have hrec := ih (fun x hx => hall x (List.mem_cons_of_mem y hx)) hys
      simp [dictGet, hrec]
    · have hnone : dictGet ys r.id = Option.none :=
        dictGet_eq_none ys r.id (fun x hx hxk => hys ⟨x, hx, hxk⟩)
      obtain ⟨x, hx, hxk⟩ := hex
      have hyid : y.id = r.id := by
        rcases List.mem_cons.mp hx with hxy | hxys
        · rw [← hxy]; exact hxk
        · exact absurd ⟨x, hxys, hxk⟩ hys
      have hy : y = r := hall y (List.mem_cons_self y ys) hyid
      subst hy
      simp [dictGet, hnone]

/-! Theorems settling the claims. -/

/-- Claim C1: for every history of length n and every persona instruction, the
message list assembled for a conversational turn has length `min n 20 + 1`,
and its first element is always the persona/system message (it is never
evicted by the truncation). -/
theorem c1_context_assembler (persona : String) (history : List Msg) :
    (assembleContext persona history).length = min history.length 20 + 1 ∧
    (assembleContext persona history).head? = some (sysMsg persona) := by
  unfold assembleContext truncateMessages
  by_cases h : (sysMsg persona :: history).length > 20
  · rw [if_pos h]
    simp only [List.length_cons] at h
    constructor
    · rw [List.length_append, List.length_take, List.length_drop]
      simp only [List.length_cons]
      omega
    · rw [List.take_cons Nat.one_pos]
      rfl
  · rw [if_neg h]
    simp only [List.length_cons, gt_iff_lt, not_lt] at h
    constructor
    · simp only [List.length_cons]
      omega
    · rfl

/-- Claim C2 (code bug witnessed): when the generation backend fails during
an outline regeneration, the error-tagged string `"Error: boom"` is stored
wholesale into `outline_content`, overwriting the previously stored
`"GOOD OUTLINE"` — the code does not preserve the prior artifact. -/
theorem c2_failed_regen_overwrites :
    (outlineBranch (fun _ _ => AiResult.failure "boom")
        ⟨"t", [], some "", some "", some "GOOD OUTLINE", some "", some "", "2024"⟩
        "" "" "" "").outline_content = some ("Error: " ++ "boom") ∧
    ("GOOD OUTLINE" : String) ≠ "Error: " ++ "boom" := by
  exact ⟨rfl, by decide⟩

/-- Claim C3 counterexample: an exception raised by the backend upsert
propagates out of `save_session_db` (no try/except in line 192), so the
call does not always return normally. -/
theorem c3_save_error_propagates :
    save_session_db (Backend.failing "boom") "s1"
        ⟨"t", [], some "", some "", some "", some "", some "", "2024"⟩ "alice"
      = Except.error "boom" := rfl

/-- Claim C3 amended: `save_session_db` returns normally when the backend is
unconfigured (the `sb and ...` short-circuit) or when the upsert succeeds,
but an exception raised by the backend upsert propagates to the caller. -/
theorem c3_save_session_db_paths (sid u e : String) (d : SessionDoc)
    (t : List ChatRecord) :
    save_session_db Backend.unconfigured sid d u = Except.ok Backend.unconfigured ∧
    save_session_db (Backend.working t) sid d u
      = Except.ok (Backend.working (tableUpsert t ⟨sid, u, d⟩)) ∧
    save_session_db (Backend.failing e) sid d u = Except.error e :=
  ⟨rfl, rfl, rfl⟩

/-- Claim C4: for every user and every backend failure mode (unconfigured
client, or any exception raised by the select), `load_user_data` returns
the empty mapping rather than propagating the error. -/
theorem c4_load_fails_soft (u e k : String) :
    load_user_data Backend.unconfigured u k = Option.none ∧
    load_user_data (Backend.failing e) u k = Option.none :=
  ⟨rfl, rfl⟩

/-- Claim C7: deleting a session id is idempotent on a functioning store:
both calls return normally, the second call leaves the state of the first
unchanged, and after each call no row with that id remains. -/
theorem c7_delete_idempotent (t : List ChatRecord) (sid : String) :
    ∃ t₁, delete_session_db (Backend.working t) sid
        = Except.ok (Backend.working t₁) ∧
      delete_session_db (Backend.working t₁) sid
        = Except.ok (Backend.working t₁) ∧
      ∀ r ∈ t₁, r.id ≠ sid := by
  refine ⟨tableDelete t sid, rfl, ?_, ?_⟩
  · exact congrArg (fun l => Except.ok (Backend.working l))
      (filter_idem (fun (x : ChatRecord) => x.id != sid) t)
  · intro r hr
    have := List.of_mem_filter hr
    simpa using this

/-- Claim C5: on a functioning store with no interleaving writes,
`save_session_db(sid, doc, u)` followed by `load_user_data(u)` yields a
mapping containing `sid` whose value is exactly `doc` — the store
round-trips the document unchanged. -/
theorem c5_roundtrip (t : List ChatRecord) (sid u : String) (doc : SessionDoc) :
    ∃ t₁, save_session_db (Backend.working t) sid doc u
        = Except.ok (Backend.working t₁) ∧
      load_user_data (Backend.working t₁) u sid = some doc := by
  refine ⟨tableUpsert t ⟨sid, u, doc⟩, rfl, ?_⟩
  unfold load_user_data tableSelectUser tableUpsert
  by_cases hany : t.any (fun x => x.id == (⟨sid, u, doc⟩ : ChatRecord).id)
  · rw [if_pos hany]
    have hmain :
        dictGet (List.filter (fun x => x.username == u)
          (t.map (fun x => if x.id == (⟨sid, u, doc⟩ : ChatRecord).id
            then (⟨sid, u, doc⟩ : ChatRecord) else x)))
          (⟨sid, u, doc⟩ : ChatRecord).id = some (⟨sid, u, doc⟩ : ChatRecord).data := by
      apply dictGet_all_eq
      · intro x hx hid
        have hx₁ := (List.mem_filter.mp hx).1
        obtain ⟨x₀, _, hgx⟩ := List.mem_map.mp hx₁
        by_cases h₀ : x₀.id == sid
        · rw [if_pos h₀] at hgx
          exact hgx.symm
        · rw [if_neg h₀] at hgx
          subst hgx
          exact absurd (by exact beq_iff_eq.mpr hid) h₀
      · obtain ⟨x₀, hx₀, hbeq⟩ := List.any_eq_true.mp hany
        refine ⟨⟨sid, u, doc⟩, List.mem_filter.mpr ⟨?_, by simp⟩, rfl⟩
        refine List.mem_map.mpr ⟨x₀, hx₀, ?_⟩
        rw [if_pos hbeq]
    exact hmain
  · rw [if_neg hany]
    have hone : List.filter (fun (x : ChatRecord) => x.username == u)
        [(⟨sid, u, doc⟩ : ChatRecord)] = [⟨sid, u, doc⟩] := by
      simp [List.filter]
    have hmain : dictGet (List.filter (fun (x : ChatRecord) => x.username == u)
        (t ++ [⟨sid, u, doc⟩])) sid = some doc := by
      rw [List.filter_append, hone]
      exact dictGet_append_last _ ⟨sid, u, doc⟩
    exact hmain

/-- Claim C6: every session document present in the history mapping after the
load-and-back-fill step at login has all five keys `article_content`,
`script_content`, `outline_content`, `extracted_material`,
`extracted_analysis` present — never absent. -/
theorem c6_backfill_presence (sb : Backend) (u k : String) (d : SessionDoc)
    (h : loadAndBackfill sb u k = some d) :
    d.article_content.isSome = true ∧ d.script_content.isSome = true ∧
    d.outline_content.isSome = true ∧ d.extracted_material.isSome = true ∧
    d.extracted_analysis.isSome = true := by
  unfold loadAndBackfill at h
  obtain ⟨a, -, hd⟩ := Option.map_eq_some'.mp h
  subst hd
  exact ⟨fillKey_isSome _, fillKey_isSome _, fillKey_isSome _,
    fillKey_isSome _, fillKey_isSome _⟩

/-- Witness for C6: a store holding one session document with all five keys
absent; after load-and-back-fill the document returned for its id has all
five keys present. -/
theorem c6_backfill_presence_witness :
    ((⟨"t", [], some "", some "", some "", some "", some "", "2024"⟩ :
      SessionDoc).article_content.isSome = true) ∧
    ((⟨"t", [], some "", some "", some "", some "", some "", "2024"⟩ :
      SessionDoc).script_content.isSome = true) ∧
    ((⟨"t", [], some "", some "", some "", some "", some "", "2024"⟩ :
      SessionDoc).outline_content.isSome = true) ∧
    ((⟨"t", [], some "", some "", some "", some "", some "", "2024"⟩ :
      SessionDoc).extracted_material.isSome = true) ∧
    ((⟨"t", [], some "", some "", some "", some "", some "", "2024"⟩ :
      SessionDoc).extracted_analysis.isSome = true) :=
  c6_backfill_presence
    (Backend.working [⟨"s1", "alice",
      ⟨"t", [], Option.none, Option.none, Option.none, Option.none, Option.none,
        "2024"⟩⟩])
    "alice" "s1"
    ⟨"t", [], some "", some "", some "", some "", some "", "2024"⟩
    (by decide)

/-- Claim C8: on a fresh users table, registering "alice" with password
"secret1" succeeds and stores the one-way hash; logging in with the right
password returns success with the stored record, logging in with a wrong
password fails. The only assumption on the external SHA-256 is that the
two passwords hash differently. -/
theorem c8_register_login (hashP : String → String)
    (hne : hashP "secret1" ≠ hashP "wrong") :
    ∃ rec : UserRecord,
      register_user hashP [] "alice" "secret1" = ((true, "成功"), [rec]) ∧
      rec.username = "alice" ∧ rec.password = hash_password hashP "secret1" ∧
      login_user hashP [rec] "alice" (some "secret1") = (true, some rec) ∧
      login_user hashP [rec] "alice" (some "wrong") = (false, Option.none) := by
  refine ⟨⟨"alice", hash_password hashP "secret1", []⟩, rfl, rfl, rfl, ?_, ?_⟩
  · unfold login_user pwTruthy hash_password
    simp [List.filter]
  · have hbeq : (hashP "secret1" == hashP "wrong") = false :=
      beq_eq_false_iff_ne.mpr hne
    unfold login_user pwTruthy hash_password
    simp [List.filter, hbeq]

/-- Witness for C8 at the identity stand-in for the hash function, whose
values on "secret1" and "wrong" indeed differ. -/
theorem c8_register_login_witness :
    ∃ rec : UserRecord,
      register_user (fun s => s) [] "alice" "secret1" = ((true, "成功"), [rec]) ∧
      rec.username = "alice" ∧ rec.password = hash_password (fun s => s) "secret1" ∧
      login_user (fun s => s) [rec] "alice" (some "secret1") = (true, some rec) ∧
      login_user (fun s => s) [rec] "alice" (some "wrong") = (false, Option.none) :=
  c8_register_login (fun s => s) (by decide)

/-- Claim C9: in the multi-agent flow the value stored in `script_content`
is exactly the rewrite stage's streamed output; whenever that output
differs from the draft and the critique texts, the stored value is neither
of them — draft and critique are only interpolated into the rewrite
prompt. -/
theorem c9_multiagent_rewrite (ai : String → String → AiResult)
    (aiS : List Msg → Except String (List String)) (sess : SessionDoc)
    (ctx_str thm chars scene plot extra : String) (frags : List String)
    (hstream : aiS [⟨"system", SCRIPT_STYLE_GUIDE⟩,
        ⟨"user", rewritePrompt (draftOf ai (basePrompt ctx_str thm chars scene plot extra))
          (critiqueOf ai (draftOf ai (basePrompt ctx_str thm chars scene plot extra)))⟩]
      = Except.ok frags)
    (hd : String.join frags ≠ draftOf ai (basePrompt ctx_str thm chars scene plot extra))
    (hc : String.join frags
      ≠ critiqueOf ai (draftOf ai (basePrompt ctx_str thm chars scene plot extra))) :
    ∃ sess₁, scriptBranch ai aiS sess ctx_str thm chars scene plot extra true
        = Except.ok sess₁ ∧
      sess₁.script_content = some (String.join frags) ∧
      sess₁.script_content
        ≠ some (draftOf ai (basePrompt ctx_str thm chars scene plot extra)) ∧
      sess₁.script_content
        ≠ some (critiqueOf ai (draftOf ai (basePrompt ctx_str thm chars scene plot extra))) := by
  refine ⟨{ sess with script_content := some (String.join frags) }, ?_, rfl, ?_, ?_⟩
  · have htrunc : call_ai_stream aiS [⟨"system", SCRIPT_STYLE_GUIDE⟩,
        ⟨"user", rewritePrompt (draftOf ai (basePrompt ctx_str thm chars scene plot extra))
          (critiqueOf ai (draftOf ai (basePrompt ctx_str thm chars scene plot extra)))⟩]
        = StreamResult.stream frags := by
      unfold call_ai_stream
      rw [truncateMessages_short _ (by simp), hstream]
    have hbranch : scriptBranch ai aiS sess ctx_str thm chars scene plot extra true
        = match call_ai_stream aiS [⟨"system", SCRIPT_STYLE_GUIDE⟩,
            ⟨"user", rewritePrompt (draftOf ai (basePrompt ctx_str thm chars scene plot extra))
              (critiqueOf ai (draftOf ai (basePrompt ctx_str thm chars scene plot extra)))⟩] with
          | StreamResult.errstr e => Except.error e
          | StreamResult.stream frags =>
              Except.ok { sess with script_content := some (String.join frags) } := rfl
    rw [hbranch, htrunc]
  · intro hcontra
    exact hd (Option.some_inj.mp hcontra)
  · intro hcontra
    exact hc (Option.some_inj.mp hcontra)

/-- Witness for C9 with a constant draft/critique backend and a one-fragment
rewrite stream whose output differs from both. -/
theorem c9_multiagent_rewrite_witness :
    ∃ sess₁, scriptBranch (fun _ _ => AiResult.text "draft")
        (fun _ => Except.ok ["rewritten"])
        ⟨"t", [], some "", some "", some "", some "", some "", "2024"⟩
        "" "" "" "" "" "" true = Except.ok sess₁ ∧
      sess₁.script_content = some (String.join ["rewritten"]) ∧
      sess₁.script_content ≠ some (draftOf (fun _ _ => AiResult.text "draft")
        (basePrompt "" "" "" "" "" "")) ∧
      sess₁.script_content ≠ some (critiqueOf (fun _ _ => AiResult.text "draft")
        (draftOf (fun _ _ => AiResult.text "draft") (basePrompt "" "" "" "" "" ""))) :=
  c9_multiagent_rewrite (fun _ _ => AiResult.text "draft")
    (fun _ => Except.ok ["rewritten"])
    ⟨"t", [], some "", some "", some "", some "", some "", "2024"⟩
    "" "" "" "" "" "" ["rewritten"] rfl (by decide) (by decide)

/-- Claim C10 (implicit): for every username present in the users table,
`login_user` with a falsy password (None or the empty string) skips the
password-hash filter entirely and returns success with that user's record
— an empty password bypasses the credential check. -/
theorem c10_empty_password_bypass (hashP : String → String)
    (users : List UserRecord) (u : String) (p : Option String)
    (hexists : users.any (fun r => r.username == u) = true)
    (hfalsy : pwTruthy p = false) :
    (login_user hashP users u p).1 = true ∧
    ∃ rec, (login_user hashP users u p).2 = some rec ∧ rec.username = u := by
  obtain ⟨x, hx, hbeq⟩ := List.any_eq_true.mp hexists
  unfold login_user
  rw [hfalsy]
  cases hfilter : users.filter (fun r => r.username == u) with
  | nil =>
    have hmem : x ∈ users.filter (fun r => r.username == u) :=
      List.mem_filter.mpr ⟨hx, hbeq⟩
    rw [hfilter] at hmem
    cases hmem
  | cons rec rest =>
    have hr : rec ∈ users.filter (fun r => r.username == u) := by
      rw [hfilter]; exact List.mem_cons_self rec rest
    have hp : (rec.username == u) = true := (List.mem_filter.mp hr).2
    exact ⟨rfl, rec, rfl, eq_of_beq hp⟩

/-- Witness for C10: the user "bob" exists, and logging in with the empty
password succeeds with bob's record. -/
theorem c10_empty_password_bypass_witness :
    (login_user (fun s => s) [⟨"bob", "h", []⟩] "bob" (some "")).1 = true ∧
    ∃ rec, (login_user (fun s => s) [⟨"bob", "h", []⟩] "bob" (some "")).2 = some rec ∧
      rec.username = "bob" :=
  c10_empty_password_bypass (fun s => s) [⟨"bob", "h", []⟩] "bob" (some "")
    (by decide) (by decide)

end Lalamuse
